import Mathlib

set_option maxHeartbeats 1000000
set_option maxRecDepth 8192

/-!
A verification development for the role-based coercion engine in
sql/coercions.py.  The engine is shallowly embedded: candidate values and
expression-tree nodes become inductive types, the dispatcher `expect` and the
per-role literal/implicit/post coercion functions become Lean functions, and
Python exceptions become an `Except` error channel.  Deprecation notices and
invocations of the coercion hooks are made observable in the result so that
claims about which hook ran (and how many notices were emitted) are statable.

Collaborator modules that the engine imports (the role class lattice in
roles.py, the node constructors in elements.py / selectable.py, the generic
inspection facility, and small util helpers) are not part of the shown source;
each such definition below is marked `Modelled from the spec:` and follows the
wording of the specification for that collaborator.
-/

/-- Comparison operator tags from the operators module.  Only the identities
of the four membership-test operators matter to the engine. -/
inductive SqlOperator where
  | in_op
  | notin_op
  | empty_in_op
  | empty_notin_op
  deriving DecidableEq

/-- A bind-parameter type marker.  The engine only ever asks whether a type is
the null type (BinaryElementImpl post-coercion). -/
inductive Ty where
  | nullTy
  | named (s : String)
  deriving DecidableEq

/-- type._isnull -/
def Ty.isnull : Ty → Bool
  | .nullTy => true
  | .named _ => false

/-- A plain Python value held inside a bind parameter. -/
inductive Lit where
  | str (s : String)
  | int (n : Int)
  | bool (b : Bool)
  | obj (id : Nat)
  deriving DecidableEq

/-- Expression-tree nodes (ClauseElement instances).  Modelled from the spec:
the node constructors live in the external elements/selectable modules; the
constructors here are exactly the ones the engine calls (bind parameter,
null/true/false literal, wildcard/literal column, text clause, label
reference, clause list, grouping, annotation, select, subquery, alias). -/
inductive Node where
  | null
  | false_
  | true_
  | bindParam (name : Option String) (value : Lit) (ty : Ty)
      (expanding : Bool) (expandingTypes : List Ty)
  | offsetLimitParam (name : Option String) (value : Int) (ty : Ty)
  | textClause (text : String)
  | columnClause (text : String) (isLiteral : Bool)
  | label (name : Option String) (inner : Node)
  | labelReference (inner : Node)
  | textualLabelReference (text : String)
  | clauseList (elems : List Node)
  | tupleClause (elems : List Node)
  | grouping (inner : Node)
  | annotated (inner : Node) (inOps : SqlOperator × SqlOperator)
  | selectStmt (source : Node)
  | textAsFrom (inner : Node)
  | scalarSubquery (inner : Node)
  | subquery (inner : Node)
  | alias (inner : Node) (flat : Bool)
  | table (name : String)

/-- Candidate values handed to `expect`: tree nodes, schema items, Python
literals, iterables, objects exposing the conversion hook
(a zero-argument method returning another value), objects registered with the
generic inspection facility, and arbitrary plain objects. -/
inductive Value where
  | node (n : Node)
  | schemaItem (name : String)
  | str (s : String)
  | int (n : Int)
  | bool (b : Bool)
  | none_
  | list (elems : List Value)
  | hooked (inner : Value)
  | inspectable (hasHook : Bool) (hookNode : Node) (numVal : Option Int)
  | truncLabel (s : String)
  | plainObject (id : Nat)

/-- The roles of the registry: exactly those role tags for which the shown
source declares a matching rule-set implementation class. -/
inductive Role where
  | expressionElement
  | binaryElement
  | inElement
  | whereHaving
  | statementOption
  | columnArgument
  | columnArgumentOrKey
  | byOf
  | orderBy
  | dmlColumn
  | constExpr
  | truncatedLabel
  | ddlExpression
  | ddlConstraintColumn
  | limitOffset
  | labeledColumnExpr
  | columnsClause
  | returnsRows
  | statement
  | coerceTextStatement
  | selectStatement
  | hasCTE
  | fromClause
  | strictFromClause
  | anonymizedFromClause
  | dmlSelect
  | compoundElement
  deriving DecidableEq

/-- Which pluggable function of the rule set ran during resolution. -/
inductive Event where
  | literal
  | implicit
  | post
  deriving DecidableEq

/-- The engine raises exc.ArgumentError (the coercion error of the spec) for
bad input; RoleImpl has an abstract literal coercion that raises
NotImplementedError; attribute access on a resolved value of the wrong Python
shape surfaces as an AttributeError. -/
inductive Err where
  | argumentError (msg : String)
  | notImplementedError
  | attributeError
  deriving DecidableEq

/-- A successful result of `expect`: the value handed back to the caller, the
deprecation notices emitted on the way, and the coercion hooks that ran. -/
structure Outcome where
  value : Value
  warnings : List String
  events : List Event

/-- The keyword options of `expect`.  Every field has the default the source
gives the corresponding keyword argument. -/
structure Kw where
  argname : Option String := none
  name : Option String := none
  type_ : Ty := .nullTy
  expr : Node := .null
  operator : SqlOperator := .in_op
  allow_select : Bool := false
  flat : Bool := false
  as_key : Bool := false


/-! ## Node predicates and methods

The `_is_*` flags and the constructor methods the engine calls on nodes.
Modelled from the spec: the node classes live in the external
elements/selectable modules.  An annotation produced by `_annotate` yields a
dynamically created subclass of the annotated class, so every class-level
test sees through `annotated`. -/

/-- resolved._is_select_statement: SELECT statements and textual SELECT
constructs. -/
def Node.isSelectStatement : Node → Bool
  | .annotated n _ => n.isSelectStatement
  | .selectStmt _ => true
  | .textAsFrom _ => true
  | _ => false

/-- resolved._is_from_clause: tables, aliases and subqueries. -/
def Node.isFromClauseNode : Node → Bool
  | .annotated n _ => n.isFromClauseNode
  | .table _ => true
  | .alias _ _ => true
  | .subquery _ => true
  | _ => false

/-- resolved._is_text_clause -/
def Node.isTextClauseNode : Node → Bool
  | .annotated n _ => n.isTextClauseNode
  | .textClause _ => true
  | _ => false

/-- isinstance(resolved, selectable.Alias) -/
def Node.isAlias : Node → Bool
  | .annotated n _ => n.isAlias
  | .alias _ _ => true
  | _ => false

/-- resolved.original on an Alias: the underlying selectable with every alias
layer removed. -/
def Node.original : Node → Node
  | .alias inner _ => inner.original
  | n => n

/-- isinstance(element, elements.ClauseList), seen through annotations; gives
the .clauses list when the test succeeds. -/
def Node.asClauseList : Node → Option (List Node)
  | .annotated n _ => n.asClauseList
  | .clauseList xs => some xs
  | _ => none

/-- isinstance(element, elements.BindParameter) and element.expanding -/
def Node.isExpandingBindParam : Node → Bool
  | .annotated n _ => n.isExpandingBindParam
  | .bindParam _ _ _ expanding _ => expanding
  | _ => false

/-- element._with_expanding_in_types(types) -/
def Node.withExpandingInTypes : Node → List Ty → Node
  | .annotated n ops, tys => .annotated (n.withExpandingInTypes tys) ops
  | .bindParam name v ty expanding _, tys => .bindParam name v ty expanding tys
  | n, _ => n

/-- isinstance(element, operators.ColumnOperators): the column-expression
nodes expose comparison operators; list containers, text clauses and FROM
clauses do not. -/
def Node.isColumnOperators : Node → Bool
  | .annotated n _ => n.isColumnOperators
  | .null | .false_ | .true_ => true
  | .bindParam .. | .offsetLimitParam .. => true
  | .columnClause .. | .label .. | .labelReference .. => true
  | .textualLabelReference .. => true
  | .grouping .. | .scalarSubquery .. | .tupleClause .. => true
  | _ => false

/-- resolved._order_by_label_element is not None: only label nodes carry the
order-by-label marker. -/
def Node.hasOrderByLabel : Node → Bool
  | .annotated n _ => n.hasOrderByLabel
  | .label _ _ => true
  | _ => false

/-- expr.type, for expr._bind_param type inheritance. -/
def Node.typeOf : Node → Ty
  | .annotated n _ => n.typeOf
  | .bindParam _ _ ty _ _ => ty
  | .offsetLimitParam _ _ ty => ty
  | .label _ n => n.typeOf
  | .grouping n => n.typeOf
  | .columnClause _ _ => .named "column"
  | _ => .nullTy

/-- element.key of a column-like node (DMLColumnImpl as-key extraction). -/
def Node.keyOf : Node → String
  | .annotated n _ => n.keyOf
  | .columnClause t _ => t
  | .label (some nm) _ => nm
  | _ => ""

/-! ## Value predicates -/

/-- isinstance(element, (elements.ClauseElement, schema.SchemaItem)) -/
def Value.isClauseElement : Value → Bool
  | .node _ => true
  | .schemaItem _ => true
  | _ => false

/-- hasattr(element, "a conversion hook") -/
def Value.hasHookAttr : Value → Bool
  | .hooked _ => true
  | _ => false

/-- isinstance(element, util.string_types).  A truncated label is a str
subclass, so it counts as a string. -/
def Value.isStringLike : Value → Bool
  | .str _ => true
  | .truncLabel _ => true
  | _ => false

/-- The underlying text of a string-like value. -/
def Value.stringVal : Value → Option String
  | .str s => some s
  | .truncLabel s => some s
  | _ => none

/-- isinstance(element, numbers.Number): integers, booleans, and inspection-
registered objects that also carry a numeric nature. -/
def Value.isNumber : Value → Bool
  | .int _ => true
  | .bool _ => true
  | .inspectable _ _ (some _) => true
  | _ => false

/-- str(element) for a numeric value. -/
def Value.numberStr : Value → String
  | .int n => toString n
  | .bool b => if b then "True" else "False"
  | .inspectable _ _ (some k) => toString k
  | _ => ""

/-- _is_literal(element): not a Visitable or schema item and without the
conversion-hook attribute. -/
def Value.isLiteralValue : Value → Bool
  | .node _ => false
  | .schemaItem _ => false
  | .hooked _ => false
  | _ => true

/-- isinstance(o, operators.ColumnOperators) at the value level: only tree
nodes can expose the column operators. -/
def Value.isColumnOperators : Value → Bool
  | .node n => n.isColumnOperators
  | _ => false

/-! ## The role tables

Modelled from the spec: roles form a capability lattice declared in the
external roles module; each tree-node class is registered for the roles it
satisfies, a strict FROM clause refines a FROM clause, the columns-clause
role accepts column expressions and FROM clauses, membership tests accept
column expressions, SELECT statements and clause lists, and only the
columns-clause/FROM-clause lineage opts into the generic inspection
facility. -/

/-- The column-expression node classes. -/
def Node.isColumnElement : Node → Bool
  | .annotated n _ => n.isColumnElement
  | .null | .false_ | .true_ => true
  | .bindParam .. | .offsetLimitParam .. => true
  | .columnClause .. | .label .. | .labelReference .. => true
  | .textualLabelReference .. => true
  | .grouping .. | .scalarSubquery .. | .tupleClause .. => true
  | _ => false

/-- The constant-expression node classes (null/true/false literals). -/
def Node.isConstNode : Node → Bool
  | .annotated m _ => m.isConstNode
  | .null | .false_ | .true_ => true
  | _ => false

/-- The node classes registered as labeled column expressions (labels and
named columns). -/
def Node.isLabeledColumnNode : Node → Bool
  | .annotated m _ => m.isLabeledColumnNode
  | .label .. | .columnClause .. => true
  | _ => false

/-- issubclass(node class, role class): the accepted variant set of each
role.  Modelled from the spec, see above.  Every flag predicate sees through
annotations, so membership does too. -/
def nodeInRole (r : Role) (n : Node) : Bool :=
  match r with
  | .expressionElement => n.isColumnElement
  | .binaryElement => n.isColumnElement
  | .inElement => n.isColumnElement || n.isSelectStatement || (n.asClauseList).isSome
  | .whereHaving => n.isColumnElement || n.isTextClauseNode
  | .statementOption => n.isColumnElement || n.isTextClauseNode
  | .columnArgument => n.isColumnElement
  | .columnArgumentOrKey => n.isColumnElement
  | .byOf => n.isColumnElement || n.isTextClauseNode
  | .orderBy => n.isColumnElement || n.isTextClauseNode
  | .dmlColumn => n.isColumnElement
  | .constExpr => n.isConstNode
  | .truncatedLabel => false
  | .ddlExpression => n.isColumnElement || n.isTextClauseNode
  | .ddlConstraintColumn => n.isColumnElement
  | .limitOffset => n.isColumnElement
  | .labeledColumnExpr => n.isLabeledColumnNode
  | .columnsClause => n.isColumnElement || n.isTextClauseNode || n.isFromClauseNode
  | .returnsRows => n.isSelectStatement || n.isFromClauseNode
  | .statement => n.isSelectStatement || n.isTextClauseNode
  | .coerceTextStatement => n.isSelectStatement || n.isTextClauseNode
  | .selectStatement => n.isSelectStatement
  | .hasCTE => n.isSelectStatement || n.isFromClauseNode
  | .fromClause => n.isFromClauseNode
  | .strictFromClause => n.isFromClauseNode
  | .anonymizedFromClause => n.isFromClauseNode
  | .dmlSelect => n.isSelectStatement
  | .compoundElement => n.isSelectStatement

/-- issubclass(resolved.__class__, impl._role_class) for an arbitrary
resolved value: only tree nodes and wrapped truncated-label identifiers are
registered for roles. -/
def valueInRole (r : Role) (v : Value) : Bool :=
  match v with
  | .node n => nodeInRole r n
  | .truncLabel _ => r = .truncatedLabel
  | _ => false

/-- issubclass(elements.TextClause, self._role_class) -/
def textClauseInRole (r : Role) : Bool :=
  nodeInRole r (.textClause "")

/-- role_class._role_name.  Modelled from the spec: the user-facing name of
the semantic requirement, declared on the role class. -/
def roleName : Role → String
  | .expressionElement => "SQL expression element"
  | .binaryElement => "SQL expression element"
  | .inElement => "IN expression list, SELECT construct, or bound parameter object"
  | .whereHaving => "SQL expression for WHERE/HAVING role"
  | .statementOption => "SQL statement option"
  | .columnArgument => "Column expression"
  | .columnArgumentOrKey => "Column expression or string key"
  | .byOf => "Column expression or string"
  | .orderBy => "ORDER BY expression"
  | .dmlColumn => "Column expression or string key"
  | .constExpr => "Constant True/False/None expression"
  | .truncatedLabel => "String SQL identifier"
  | .ddlExpression => "DDL expression"
  | .ddlConstraintColumn => "Column expression or string key"
  | .limitOffset => "integer or SQL expression"
  | .labeledColumnExpr => "Expression with a label for the columns clause"
  | .columnsClause => "Column expression or FROM clause"
  | .returnsRows => "Row returning expression"
  | .statement => "Executable SQL or text construct"
  | .coerceTextStatement => "Executable SQL or text construct"
  | .selectStatement => "SELECT construct or equivalent text construct"
  | .hasCTE => "Statement that can accept a CTE"
  | .fromClause => "FROM expression, such as a Table or alias object"
  | .strictFromClause => "FROM expression, such as a Table or alias object"
  | .anonymizedFromClause => "FROM expression, such as a Table or alias object"
  | .dmlSelect => "SELECT construct for use in an INSERT from SELECT"
  | .compoundElement => "SELECT construct for use in a set operation"

/-- issubclass(role_class, roles.UsesInspection).  Modelled from the spec:
only the columns-clause/FROM-clause lineage opts into the generic inspection
facility. -/
def useInspection : Role → Bool
  | .columnsClause => true
  | .fromClause => true
  | .strictFromClause => true
  | .anonymizedFromClause => true
  | _ => false

/-- The rule sets composed with the no-text-coercion policy
(each implementation class listing _NoTextCoercion as a base). -/
def isNoTextRole : Role → Bool
  | .columnArgument => true
  | .statement => true
  | .selectStatement => true
  | .fromClause => true
  | .strictFromClause => true
  | .anonymizedFromClause => true
  | .dmlSelect => true
  | .compoundElement => true
  | _ => false

/-- The rule sets that define a post-coercion function. -/
def hasPost : Role → Bool
  | .binaryElement => true
  | .inElement => true
  | .orderBy => true
  | .dmlColumn => true
  | .anonymizedFromClause => true
  | _ => false

/-- The rule sets whose implicit coercion is the RoleImpl default
(raise the role-mismatch diagnostic). -/
def usesDefaultImplicit : Role → Bool
  | .statementOption => true
  | .columnArgument => true
  | .constExpr => true
  | .ddlExpression => true
  | .columnsClause => true
  | .returnsRows => true
  | .statement => true
  | .coerceTextStatement => true
  | .hasCTE => true
  | _ => false

/-! ## Diagnostics -/

/-- Modelled from the spec: util.ellipses_string renders a value preview
truncated to a bounded length (25 characters). -/
def ellipsesString (s : String) : String :=
  if s.length > 25 then s.take 25 ++ "..." else s

/-- repr(element).  Modelled from the spec: the diagnostic renders the
offending value; strings and scalars render the Python way and in full,
containers and foreign objects render as a bracketed summary. -/
def reprValue : Value → String
  | .str s => "\x27" ++ s ++ "\x27"
  | .truncLabel s => "\x27" ++ s ++ "\x27"
  | .int n => toString n
  | .bool b => if b then "True" else "False"
  | .none_ => "None"
  | .list xs => "[list of " ++ toString xs.length ++ " values]"
  | .node _ => "<ClauseElement object>"
  | .schemaItem nm => "<SchemaItem " ++ nm ++ ">"
  | .hooked _ => "<object with a conversion hook>"
  | .inspectable _ _ _ => "<inspectable object>"
  | .plainObject id => "<object " ++ toString id ++ ">"

/-- RoleImpl._raise_for_expected message: with an argument name the message
is "name expected for argument a; got v.", without it the message is
"name expected, got v.". -/
def raiseForExpectedMsg (r : Role) (v : Value) (argname : Option String) : String :=
  match argname with
  | some a =>
    roleName r ++ " expected for argument \x27" ++ a ++ "\x27; got " ++ reprValue v ++ "."
  | none => roleName r ++ " expected, got " ++ reprValue v ++ "."

/-- RoleImpl._raise_for_expected as an error value. -/
def raiseForExpected (r : Role) (v : Value) (argname : Option String) : Err :=
  .argumentError (raiseForExpectedMsg r v argname)

/-- _no_text_coercion: the textual-SQL rejection diagnostic (with the length
bounded preview of the string and, when given, the argument name). -/
def noTextMsg (s : String) (argname : Option String) : String :=
  "Textual SQL expression \x27" ++ ellipsesString s ++ "\x27 " ++
    (match argname with | some a => "for argument " ++ a | none => "") ++
    "should be explicitly declared as text(\x27" ++ ellipsesString s ++ "\x27)"

/-- The "looks like a plain identifier" pattern of ColumnsClauseImpl: a word
character followed by non-space characters. -/
def isWordChar (c : Char) : Bool := c.isAlphanum || c = '_'

def guessStraightColumn (s : String) : Bool :=
  match s.data with
  | [] => false
  | c :: rest => isWordChar c && rest.all (fun ch => !ch.isWhitespace)

/-- ColumnsClauseImpl._text_coercion diagnostic, guessing whether to
recommend the literal-column or the quoted-identifier constructor. -/
def columnsClauseTextMsg (s : String) (argname : Option String) : String :=
  let q := "\x27" ++ ellipsesString s ++ "\x27"
  let lc := if guessStraightColumn s then "column" else "literal_column"
  "Textual column expression " ++ q ++ " " ++
    (match argname with | some a => "for argument " ++ a | none => "") ++
    "should be explicitly declared with text(" ++ q ++ "), or use " ++ lc ++
    "(" ++ q ++ ") for more specificity"

/-- util.warn_deprecated text for the implicit scalar-subquery coercion. -/
def scalarSubqueryWarning : String :=
  "coercing SELECT object to scalar subquery in a column-expression context is deprecated in version 1.4; please use the .scalar_subquery() method to produce a scalar subquery.  This automatic coercion will be removed in a future release."

/-- util.warn_deprecated text for the implicit SELECT-into-FROM coercion. -/
def selectIntoFromWarning : String :=
  "Implicit coercion of SELECT and textual SELECT constructs into FROM clauses is deprecated; please call .subquery() on any Core select or ORM Query object in order to produce a subquery object."

/-! ## External collaborators -/

/-- Modelled from the spec: inspection.inspect(element, raiseerr=False)
returns a structural descriptor for registered objects and None otherwise;
the descriptor may itself expose the conversion hook (the returned node). -/
def inspectValue : Value → Option (Bool × Node)
  | .inspectable h n _ => some (h, n)
  | _ => none

/-- Modelled from the spec: elements.BindParameter(name, value, type_,
unique=True).  Strings, numbers, booleans and plain objects are acceptable
bind values; container and wrapper shapes are the literal shapes of
unsupported form, raising the argument error the engine catches. -/
def bindParameterCtor (name : Option String) (v : Value) (ty : Ty) :
    Except Err Node :=
  match v with
  | .str s => .ok (.bindParam name (.str s) ty false [])
  | .truncLabel s => .ok (.bindParam name (.str s) ty false [])
  | .int n => .ok (.bindParam name (.int n) ty false [])
  | .bool b => .ok (.bindParam name (.bool b) ty false [])
  | .plainObject id => .ok (.bindParam name (.obj id) ty false [])
  | .inspectable _ _ _ => .ok (.bindParam name (.obj 0) ty false [])
  | _ => .error (.argumentError "not a literal value")

/-- Modelled from the spec: expr._bind_param(operator, value, type_)
constructs a bind parameter whose type, when not supplied, is inherited from
the comparison target expr. -/
def bindParamOf (expr : Node) (v : Value) (ty : Ty) : Except Err Node :=
  bindParameterCtor none v (if ty.isnull then expr.typeOf else ty)

/-- Modelled from the spec: util.asint converts the limit/offset value to an
integer, raising on a malformed numeric literal. -/
def asint : Value → Except Err Int
  | .int n => .ok n
  | .bool b => .ok (if b then 1 else 0)
  | .str s =>
    match s.toInt? with
    | some n => .ok n
    | none => .error (.argumentError ("invalid integer value " ++ reprValue (.str s)))
  | .truncLabel s =>
    match s.toInt? with
    | some n => .ok n
    | none => .error (.argumentError ("invalid integer value " ++ reprValue (.str s)))
  | v => .error (.argumentError ("invalid integer value " ++ reprValue v))

/-! ## Literal coercion, per rule set -/

/-- The _coerce_consts flag of the _CoerceLiterals mixin, per rule set. -/
def coerceConsts : Role → Bool
  | .whereHaving => true
  | .statementOption => true
  | .byOf | .orderBy => true
  | .ddlExpression => true
  | .columnsClause => true
  | _ => false

/-- The _coerce_star flag. -/
def coerceStar : Role → Bool
  | .columnsClause => true
  | _ => false

/-- The _coerce_numerics flag. -/
def coerceNumerics : Role → Bool
  | .columnsClause => true
  | _ => false

/-- The per-rule-set _text_coercion hook of the _CoerceLiterals mixin. -/
def textCoercionHook (r : Role) (s : String) (argname : Option String) :
    Except Err Value :=
  match r with
  | .statementOption => .ok (.node (.textClause s))
  | .byOf | .orderBy => .ok (.node (.textualLabelReference s))
  | .ddlExpression => .ok (.node (.textClause s))
  | .columnsClause => .error (.argumentError (columnsClauseTextMsg s argname))
  | .coerceTextStatement => .ok (.node (.textClause s))
  | _ => .error (.argumentError (noTextMsg s argname))

/-- _CoerceLiterals._literal_coercion: star promotion, text coercion,
constant folding, numeric promotion, and the mismatch diagnostic. -/
def coerceLiteralsLC (r : Role) (v : Value) (kw : Kw) : Except Err Value :=
  match v with
  | .str s =>
    if coerceStar r && s = "*" then .ok (.node (.columnClause "*" true))
    else textCoercionHook r s kw.argname
  | .truncLabel s =>
    if coerceStar r && s = "*" then .ok (.node (.columnClause "*" true))
    else textCoercionHook r s kw.argname
  | .none_ =>
    if coerceConsts r then .ok (.node .null)
    else .error (raiseForExpected r .none_ kw.argname)
  | .bool b =>
    if coerceConsts r then .ok (.node (if b then .true_ else .false_))
    else if coerceNumerics r then
      .ok (.node (.columnClause (Value.numberStr (.bool b)) true))
    else .error (raiseForExpected r (.bool b) kw.argname)
  | .int n =>
    if coerceNumerics r then .ok (.node (.columnClause (toString n) true))
    else .error (raiseForExpected r (.int n) kw.argname)
  | .inspectable h hn (some k) =>
    if coerceNumerics r then .ok (.node (.columnClause (toString k) true))
    else .error (raiseForExpected r (.inspectable h hn (some k)) kw.argname)
  | other => .error (raiseForExpected r other kw.argname)

/-- _NoTextCoercion._literal_coercion: strings are rejected, with the
textual-intent diagnostic when the role is itself textual. -/
def noTextLC (r : Role) (v : Value) (kw : Kw) : Except Err Value :=
  match v.stringVal with
  | some s =>
    if textClauseInRole r then .error (.argumentError (noTextMsg s kw.argname))
    else .error (raiseForExpected r v kw.argname)
  | none => .error (raiseForExpected r v kw.argname)

/-- ExpressionElementImpl._literal_coercion: None folds to a null node,
everything else becomes a unique bind parameter, with a mismatch diagnostic
(without the argument name) when the bind construction fails. -/
def expressionElementLC (r : Role) (v : Value) (kw : Kw) : Except Err Value :=
  match v with
  | .none_ => .ok (.node .null)
  | _ =>
    match bindParameterCtor kw.name v kw.type_ with
    | .ok n => .ok (.node n)
    | .error _ => .error (raiseForExpected r v none)

/-- BinaryElementImpl._literal_coercion: bind against the comparison target,
with a mismatch diagnostic (without the argument name) on failure. -/
def binaryElementLC (v : Value) (kw : Kw) : Except Err Value :=
  match bindParamOf kw.expr v kw.type_ with
  | .ok n => .ok (.node n)
  | .error _ => .error (raiseForExpected .binaryElement v none)

/-- The element loop of InElementImpl._literal_coercion. -/
def inElementArgs (expr : Node) (orig : Value) (argname : Option String) :
    List Value → Except Err (List Node)
  | [] => .ok []
  | o :: rest =>
    match o with
    | .node n =>
      if n.isColumnOperators then
        match inElementArgs expr orig argname rest with
        | .ok args => .ok (n :: args)
        | .error e => .error e
      else .error (raiseForExpected .inElement orig argname)
    | .schemaItem _ => .error (raiseForExpected .inElement orig argname)
    | .hooked _ => .error (raiseForExpected .inElement orig argname)
    | .none_ =>
      match inElementArgs expr orig argname rest with
      | .ok args => .ok (.null :: args)
      | .error e => .error e
    | other =>
      match bindParamOf expr other .nullTy with
      | .ok n =>
        match inElementArgs expr orig argname rest with
        | .ok args => .ok (n :: args)
        | .error e => .error e
      | .error e => .error e

/-- InElementImpl._literal_coercion: a non-string iterable has each element
checked and bound; anything else is a mismatch. -/
def inElementLC (v : Value) (kw : Kw) : Except Err Value :=
  match v with
  | .list xs =>
    match inElementArgs kw.expr (.list xs) kw.argname xs with
    | .ok args => .ok (.node (.clauseList args))
    | .error e => .error e
  | _ => .error (raiseForExpected .inElement v kw.argname)

/-- ConstExprImpl._literal_coercion -/
def constExprLC (v : Value) (kw : Kw) : Except Err Value :=
  match v with
  | .none_ => .ok (.node .null)
  | .bool false => .ok (.node .false_)
  | .bool true => .ok (.node .true_)
  | _ => .error (raiseForExpected .constExpr v kw.argname)

/-- TruncatedLabelImpl._literal_coercion.  Modelled from the spec: strings
are wrapped as length-bounded identifiers, existing wrapped identifiers pass
unchanged, and other values pass through (to be rejected downstream). -/
def truncatedLabelLC : Value → Except Err Value
  | .truncLabel s => .ok (.truncLabel s)
  | .str s => .ok (.truncLabel s)
  | other => .ok other

/-- LimitOffsetImpl._literal_coercion: None passes through as None, anything
else is converted to an integer offset/limit parameter. -/
def limitOffsetLC (v : Value) (kw : Kw) : Except Err Value :=
  match v with
  | .none_ => .ok .none_
  | _ =>
    match asint v with
    | .ok k => .ok (.node (.offsetLimitParam kw.name k kw.type_))
    | .error e => .error e

/-- The literal-coercion function of each rule set, as composed from the
mixins by the implementation classes of the source. -/
def literalCoercion (r : Role) (v : Value) (kw : Kw) : Except Err Value :=
  match r with
  | .expressionElement => expressionElementLC .expressionElement v kw
  | .labeledColumnExpr => expressionElementLC .labeledColumnExpr v kw
  | .binaryElement => binaryElementLC v kw
  | .inElement => inElementLC v kw
  | .whereHaving | .statementOption | .byOf | .orderBy | .ddlExpression
  | .columnsClause | .coerceTextStatement => coerceLiteralsLC r v kw
  | .columnArgument | .statement | .selectStatement | .fromClause
  | .strictFromClause | .anonymizedFromClause | .dmlSelect
  | .compoundElement => noTextLC r v kw
  | .columnArgumentOrKey | .dmlColumn | .ddlConstraintColumn => .ok v
  | .constExpr => constExprLC v kw
  | .truncatedLabel => truncatedLabelLC v
  | .limitOffset => limitOffsetLC v kw
  | .returnsRows | .hasCTE => .error .notImplementedError

/-! ## Implicit coercion, per rule set -/

/-- _ColumnCoercions._implicit_coercions: a resolved SELECT (or an alias of
one) is auto-wrapped as a scalar subquery with a deprecation notice. -/
def columnCoercionsIC (r : Role) (original resolved : Value) (kw : Kw) :
    Except Err (Value × List String) :=
  match resolved with
  | .node n =>
    if n.isSelectStatement then
      .ok (.node (.scalarSubquery n), [scalarSubqueryWarning])
    else if n.isFromClauseNode && n.isAlias && (n.original).isSelectStatement then
      .ok (.node (.scalarSubquery n.original), [scalarSubqueryWarning])
    else .error (raiseForExpected r original kw.argname)
  | _ => .error .attributeError

/-- _ReturnsStringKey._implicit_coercions: a string original passes through
as the plain key. -/
def returnsStringKeyIC (r : Role) (original _resolved : Value) (kw : Kw) :
    Except Err (Value × List String) :=
  if original.isStringLike then .ok (original, [])
  else .error (raiseForExpected r original kw.argname)

/-- InElementImpl._implicit_coercions: a FROM clause becomes its SELECT (an
alias of a SELECT unwraps to the SELECT itself). -/
def inElementIC (original resolved : Value) (kw : Kw) :
    Except Err (Value × List String) :=
  match resolved with
  | .node n =>
    if n.isFromClauseNode then
      if n.isAlias && (n.original).isSelectStatement then .ok (.node n.original, [])
      else .ok (.node (.selectStmt n), [])
    else .error (raiseForExpected .inElement original kw.argname)
  | _ => .error .attributeError

/-- TruncatedLabelImpl._implicit_coercions -/
def truncatedLabelIC (original resolved : Value) (kw : Kw) :
    Except Err (Value × List String) :=
  if original.isStringLike then .ok (resolved, [])
  else .error (raiseForExpected .truncatedLabel original kw.argname)

/-- LimitOffsetImpl._implicit_coercions: a resolved None passes through. -/
def limitOffsetIC (original resolved : Value) (kw : Kw) :
    Except Err (Value × List String) :=
  match resolved with
  | .none_ => .ok (.none_, [])
  | _ => .error (raiseForExpected .limitOffset original kw.argname)

/-- LabeledColumnExprImpl._implicit_coercions: wrap an expression element in
an anonymous label, also after the inherited scalar-subquery coercion. -/
def labeledColumnExprIC (original resolved : Value) (kw : Kw) :
    Except Err (Value × List String) :=
  if valueInRole .expressionElement resolved then
    match resolved with
    | .node n => .ok (.node (.label none n), [])
    | _ => .error .attributeError
  else
    match columnCoercionsIC .labeledColumnExpr original resolved kw with
    | .ok (newv, warns) =>
      if valueInRole .expressionElement newv then
        match newv with
        | .node n => .ok (.node (.label none n), warns)
        | _ => .error .attributeError
      else .error (raiseForExpected .labeledColumnExpr original kw.argname)
    | .error e => .error e

/-- SelectStatementImpl._implicit_coercions: a text clause gains a column
collection. -/
def selectStatementIC (original resolved : Value) (kw : Kw) :
    Except Err (Value × List String) :=
  match resolved with
  | .node n =>
    if n.isTextClauseNode then .ok (.node (.textAsFrom n), [])
    else .error (raiseForExpected .selectStatement original kw.argname)
  | _ => .error .attributeError

/-- FromClauseImpl._implicit_coercions: a text clause passes through. -/
def fromClauseIC (original resolved : Value) (kw : Kw) :
    Except Err (Value × List String) :=
  match resolved with
  | .node n =>
    if n.isTextClauseNode then .ok (.node n, [])
    else .error (raiseForExpected .fromClause original kw.argname)
  | _ => .error .attributeError

/-- StrictFromClauseImpl._implicit_coercions: a resolved SELECT statement is
wrapped as a subquery when the caller allows it (with one deprecation
notice), and rejected otherwise. -/
def strictFromIC (r : Role) (original resolved : Value) (kw : Kw) :
    Except Err (Value × List String) :=
  match resolved with
  | .node n =>
    if n.isSelectStatement && kw.allow_select then
      .ok (.node (.subquery n), [selectIntoFromWarning])
    else .error (raiseForExpected r original kw.argname)
  | _ => .error .attributeError

/-- DMLSelectImpl._implicit_coercions: a FROM clause becomes its SELECT. -/
def dmlSelectIC (original resolved : Value) (kw : Kw) :
    Except Err (Value × List String) :=
  match resolved with
  | .node n =>
    if n.isFromClauseNode then
      if n.isAlias && (n.original).isSelectStatement then .ok (.node n.original, [])
      else .ok (.node (.selectStmt n), [])
    else .error (raiseForExpected .dmlSelect original kw.argname)
  | _ => .error .attributeError

/-- CompoundElementImpl._implicit_coercions: a FROM clause passes through. -/
def compoundElementIC (original resolved : Value) (kw : Kw) :
    Except Err (Value × List String) :=
  match resolved with
  | .node n =>
    if n.isFromClauseNode then .ok (.node n, [])
    else .error (raiseForExpected .compoundElement original kw.argname)
  | _ => .error .attributeError

/-- The implicit-coercion function of each rule set; the default is the
RoleImpl mismatch diagnostic. -/
def implicitCoercions (r : Role) (original resolved : Value) (kw : Kw) :
    Except Err (Value × List String) :=
  match r with
  | .expressionElement | .binaryElement | .whereHaving | .byOf | .orderBy =>
    columnCoercionsIC r original resolved kw
  | .inElement => inElementIC original resolved kw
  | .columnArgumentOrKey | .dmlColumn | .ddlConstraintColumn =>
    returnsStringKeyIC r original resolved kw
  | .truncatedLabel => truncatedLabelIC original resolved kw
  | .limitOffset => limitOffsetIC original resolved kw
  | .labeledColumnExpr => labeledColumnExprIC original resolved kw
  | .selectStatement => selectStatementIC original resolved kw
  | .fromClause => fromClauseIC original resolved kw
  | .strictFromClause | .anonymizedFromClause => strictFromIC r original resolved kw
  | .dmlSelect => dmlSelectIC original resolved kw
  | .compoundElement => compoundElementIC original resolved kw
  | _ => .error (raiseForExpected r original kw.argname)

/-! ## Post coercion, per rule set -/

/-- BinaryElementImpl._post_coercion: a bind parameter with the null type is
cloned with the type of the comparison target. -/
def binaryElementPost (n : Node) (kw : Kw) : Node :=
  match n with
  | .annotated m ops => .annotated (binaryElementPost m kw) ops
  | .bindParam name v ty expanding tys =>
    if ty.isnull then .bindParam name v kw.expr.typeOf expanding tys else n
  | .offsetLimitParam name v ty =>
    if ty.isnull then .offsetLimitParam name v kw.expr.typeOf else n
  | _ => n

/-- InElementImpl._post_coercion: a SELECT becomes a scalar subquery; an
empty clause list becomes the annotated empty-in marker, a non-empty one a
grouped list; an expanding bind parameter against a tuple target inherits
the element types. -/
def inElementPost (n : Node) (kw : Kw) : Node :=
  if n.isSelectStatement then .scalarSubquery n
  else
    match n.asClauseList with
    | some xs =>
      if xs.length = 0 then
        let ops :=
          if kw.operator = SqlOperator.in_op then
            (SqlOperator.empty_in_op, SqlOperator.empty_notin_op)
          else (SqlOperator.empty_notin_op, SqlOperator.empty_in_op)
        .annotated (.grouping n) ops
      else .grouping n
    | none =>
      if n.isExpandingBindParam then
        match kw.expr with
        | .tupleClause elems => n.withExpandingInTypes (elems.map Node.typeOf)
        | _ => n
      else n

/-- OrderByImpl._post_coercion: an accepted node carrying the order-by-label
marker is rewritten to a label reference. -/
def orderByPost (v : Value) : Value :=
  match v with
  | .node n =>
    if nodeInRole .orderBy n && n.hasOrderByLabel then .node (.labelReference n)
    else .node n
  | _ => v

/-- DMLColumnImpl._post_coercion: with the as-key option the plain key of
the element is extracted. -/
def dmlColumnPost (v : Value) (kw : Kw) : Value :=
  if kw.as_key then
    match v with
    | .node n => .str n.keyOf
    | _ => v
  else v

/-- AnonymizedFromClauseImpl._post_coercion: always wrap as an alias. -/
def anonymizedFromPost (v : Value) (kw : Kw) : Value :=
  match v with
  | .node n => .node (.alias n kw.flat)
  | _ => v

/-- The post-coercion function of each rule set (identity when the rule set
defines none). -/
def postCoercion (r : Role) (v : Value) (kw : Kw) : Value :=
  match r with
  | .binaryElement =>
    (match v with | .node n => .node (binaryElementPost n kw) | _ => v)
  | .inElement =>
    (match v with | .node n => .node (inElementPost n kw) | _ => v)
  | .orderBy => orderByPost v
  | .dmlColumn => dmlColumnPost v kw
  | .anonymizedFromClause => anonymizedFromPost v kw
  | _ => v

/-! ## Resolution and dispatch -/

/-- The unwrap loop of RoleImpl._resolve_for_clause_element: repeatedly
invoke the conversion hook until a tree node or schema item appears or the
hook is absent; the flag records whether at least one unwrap step ran. -/
def unwrapLoop : Value → Bool → Value × Bool
  | .hooked w, _ => unwrapLoop w true
  | v, flag => (v, flag)

/-- RoleImpl._resolve_for_clause_element (with the _StringOnly override for
the truncated-label rule set): unwrap, then inspection for the opted-in
rule sets, then literal coercion. -/
def resolveForClauseElement (r : Role) (v : Value) (kw : Kw) :
    Except Err (Value × List Event) :=
  match r with
  | .truncatedLabel =>
    (match truncatedLabelLC v with
     | .ok res => .ok (res, [Event.literal])
     | .error e => .error e)
  | _ =>
    match unwrapLoop v false with
    | (element, true) => .ok (element, [])
    | (_, false) =>
      if useInspection r then
        match inspectValue v with
        | some (hasHook, hn) =>
          if hasHook then .ok (.node hn, [])
          else .error (raiseForExpected r v kw.argname)
        | none =>
          match literalCoercion r v kw with
          | .ok res => .ok (res, [Event.literal])
          | .error e => .error e
      else
        match literalCoercion r v kw with
        | .ok res => .ok (res, [Event.literal])
        | .error e => .error e

/-- The dispatcher sql.coercions.expect: fast path for tree nodes and schema
items, resolution otherwise, then the role-class check with post coercion on
acceptance and implicit coercion on mismatch. -/
def expect (role : Role) (element : Value) (kw : Kw) : Except Err Outcome :=
  match (if element.isClauseElement then .ok (element, [])
         else resolveForClauseElement role element kw :
         Except Err (Value × List Event)) with
  | .error e => .error e
  | .ok (resolved, evs) =>
    if valueInRole role resolved then
      if hasPost role then
        .ok ⟨postCoercion role resolved kw, [], evs ++ [Event.post]⟩
      else .ok ⟨resolved, [], evs⟩
    else
      match implicitCoercions role element resolved kw with
      | .error e => .error e
      | .ok (res, warns) => .ok ⟨res, warns, evs ++ [Event.implicit]⟩

/-- sql.coercions.expect_as_key: expect with the as-key option forced on. -/
def expect_as_key (role : Role) (element : Value) (kw : Kw) : Except Err Outcome :=
  expect role element { kw with as_key := true }

/-! ## Claims -/

/-- C6: for the columns-clause role, `expect` on the literal string "*"
returns a wildcard (literal) column node, `expect` on the number 5 returns a
literal column node whose text is "5", and `expect` on None returns a null
node. -/
theorem c6_columns_clause_literals :
    expect .columnsClause (.str "*") {} =
      .ok ⟨.node (.columnClause "*" true), [], [Event.literal]⟩ ∧
    expect .columnsClause (.int 5) {} =
      .ok ⟨.node (.columnClause "5" true), [], [Event.literal]⟩ ∧
    expect .columnsClause .none_ {} =
      .ok ⟨.node .null, [], [Event.literal]⟩ :=
  ⟨rfl, rfl, rfl⟩

/-- C3: for the strict FROM-clause role, a resolved full SELECT statement
raises the coercion error when allow_select is false (or left at its
default), and with allow_select true it returns the SELECT wrapped as a
subquery, emitting exactly one deprecation notice and no error. -/
theorem c3_strict_from_select (f : Node) (kw : Kw) :
    expect .strictFromClause (.node (.selectStmt f)) { kw with allow_select := false } =
      .error (.argumentError
        (raiseForExpectedMsg .strictFromClause (.node (.selectStmt f)) kw.argname)) ∧
    expect .strictFromClause (.node (.selectStmt f)) { kw with allow_select := true } =
      .ok ⟨.node (.subquery (.selectStmt f)), [selectIntoFromWarning], [Event.implicit]⟩ :=
  ⟨rfl, rfl⟩

/-- The element loop of the membership-test literal coercion preserves a
non-empty input. -/
theorem inElementArgs_cons (expr : Node) (orig : Value) (an : Option String)
    (x : Value) (xs : List Value) (args : List Node)
    (h : inElementArgs expr orig an (x :: xs) = .ok args) :
    ∃ y ys, args = y :: ys := by
  unfold inElementArgs at h
  split at h
  next n =>
    split at h
    · split at h
      next args0 heq =>
        simp only [Except.ok.injEq] at h
        exact ⟨n, args0, h.symm⟩
      next e heq => exact Except.noConfusion h
    · exact Except.noConfusion h
  next => exact Except.noConfusion h
  next => exact Except.noConfusion h
  next =>
    split at h
    next args0 heq =>
      simp only [Except.ok.injEq] at h
      exact ⟨.null, args0, h.symm⟩
    next e heq => exact Except.noConfusion h
  next other hn1 hn2 hn3 hn4 =>
    split at h
    next n heq =>
      split at h
      next args0 heq2 =>
        simp only [Except.ok.injEq] at h
        exact ⟨n, args0, h.symm⟩
      next e heq2 => exact Except.noConfusion h
    next e heq => exact Except.noConfusion h

/-- A successful membership-test dispatch of a non-empty iterable produces a
grouped non-empty clause list. -/
theorem inElement_nonempty_result (x : Value) (xs : List Value) (kw : Kw)
    (o : Outcome)
    (h : expect .inElement (.list (x :: xs)) kw = .ok o) :
    ∃ y ys, o.value = .node (.grouping (.clauseList (y :: ys))) := by
  unfold expect at h
  split at h
  next e heq => exact Except.noConfusion h
  next resolved evs heq =>
    rw [if_neg (by simp [Value.isClauseElement])] at heq
    have heq2 :
        (match (match inElementArgs kw.expr (.list (x :: xs)) kw.argname (x :: xs) with
            | .ok args => (.ok (Value.node (.clauseList args)) : Except Err Value)
            | .error e => .error e) with
          | .ok res => (.ok (res, [Event.literal]) : Except Err (Value × List Event))
          | .error e => .error e) = .ok (resolved, evs) := heq
    cases hargs : inElementArgs kw.expr (.list (x :: xs)) kw.argname (x :: xs) with
    | error e => rw [hargs] at heq2; exact Except.noConfusion heq2
    | ok args =>
      rw [hargs] at heq2
      simp only [Except.ok.injEq, Prod.mk.injEq] at heq2
      obtain ⟨y, ys, rfl⟩ := inElementArgs_cons _ _ _ _ _ _ hargs
      rw [← heq2.1] at h
      rw [if_pos (show valueInRole .inElement
        (.node (.clauseList (y :: ys))) = true from rfl)] at h
      rw [if_pos (show hasPost .inElement = true from rfl)] at h
      simp only [Except.ok.injEq] at h
      subst h
      exact ⟨y, ys, by simp [postCoercion, inElementPost, Node.isSelectStatement,
        Node.asClauseList]⟩

/-- C4: for the membership-test role, an empty iterable yields the annotated
empty marker, pairing the empty-IN operator with the empty-NOT-IN operator
(and the swapped pair when the comparison operator is not-in), and that
marker is distinct from the result for every non-empty iterable. -/
theorem c4_empty_in_marker (expr : Node) (kw : Kw) :
    expect .inElement (.list []) { kw with expr := expr, operator := .in_op } =
      .ok ⟨.node (.annotated (.grouping (.clauseList []))
        (SqlOperator.empty_in_op, SqlOperator.empty_notin_op)), [],
        [Event.literal, Event.post]⟩ ∧
    expect .inElement (.list []) { kw with expr := expr, operator := .notin_op } =
      .ok ⟨.node (.annotated (.grouping (.clauseList []))
        (SqlOperator.empty_notin_op, SqlOperator.empty_in_op)), [],
        [Event.literal, Event.post]⟩ ∧
    expect .inElement (.list [.int 1]) { kw with expr := expr, operator := .in_op } =
      .ok ⟨.node (.grouping (.clauseList [.bindParam none (.int 1) expr.typeOf false []])),
        [], [Event.literal, Event.post]⟩ ∧
    Value.node (.annotated (.grouping (.clauseList []))
        (SqlOperator.empty_in_op, SqlOperator.empty_notin_op)) ≠
      Value.node (.grouping (.clauseList [.bindParam none (.int 1) expr.typeOf false []])) ∧
    (∀ (x : Value) (xs : List Value) (o : Outcome),
      expect .inElement (.list (x :: xs))
          { kw with expr := expr, operator := .in_op } = .ok o →
      o.value ≠ .node (.annotated (.grouping (.clauseList []))
        (SqlOperator.empty_in_op, SqlOperator.empty_notin_op))) := by
  refine ⟨rfl, rfl, rfl, by simp, ?_⟩
  intro x xs o h
  obtain ⟨y, ys, hv⟩ := inElement_nonempty_result x xs _ o h
  rw [hv]
  simp

/-- C4 witness: the non-empty distinctness clause at the concrete iterable
containing the single element 1. -/
theorem c4_witness :
    expect .inElement (.list [.int 1])
        { expr := .columnClause "c" false, operator := .in_op } =
      .ok ⟨.node (.grouping (.clauseList
        [.bindParam none (.int 1) (.named "column") false []])), [],
        [Event.literal, Event.post]⟩ ∧
    Value.node (.grouping (.clauseList
        [.bindParam none (.int 1) (.named "column") false []])) ≠
      Value.node (.annotated (.grouping (.clauseList []))
        (SqlOperator.empty_in_op, SqlOperator.empty_notin_op)) :=
  ⟨rfl,
    (c4_empty_in_marker (.columnClause "c" false) {}).2.2.2.2 (.int 1) []
      ⟨.node (.grouping (.clauseList
        [.bindParam none (.int 1) (.named "column") false []])), [],
        [Event.literal, Event.post]⟩ rfl⟩

/-- C10: for the limit/offset role, `expect` on None returns None itself
(not a tree node) without error, both when None is the directly supplied
value (literal coercion) and when None is the resolved value of an unwrap
chain (implicit coercion); every resolved node outside the accepted variant
set raises. -/
theorem c10_limit_offset_none (kw : Kw) (n : Node)
    (h : nodeInRole .limitOffset n = false) :
    expect .limitOffset .none_ kw = .ok ⟨.none_, [], [Event.literal, Event.implicit]⟩ ∧
    expect .limitOffset (.hooked .none_) kw = .ok ⟨.none_, [], [Event.implicit]⟩ ∧
    expect .limitOffset (.node n) kw =
      .error (.argumentError (raiseForExpectedMsg .limitOffset (.node n) kw.argname)) := by
  refine ⟨rfl, rfl, ?_⟩
  simp [expect, Value.isClauseElement, valueInRole, h, implicitCoercions,
    limitOffsetIC, raiseForExpected]

/-- C10 witness: the limit/offset claim at the concrete rejected node, a
text clause. -/
theorem c10_witness :
    nodeInRole .limitOffset (.textClause "t") = false ∧
    expect .limitOffset (.node (.textClause "t")) {} =
      .error (.argumentError
        (raiseForExpectedMsg .limitOffset (.node (.textClause "t")) none)) :=
  ⟨rfl, (c10_limit_offset_none {} (.textClause "t") rfl).2.2⟩

/-- C9: for the ordering role, an accepted node carrying the order-by-label
marker is rewritten by `expect` into a label reference, and an accepted node
without the marker is returned unchanged. -/
theorem c9_order_by_label (n : Node) (kw : Kw)
    (hrole : nodeInRole .orderBy n = true) :
    (n.hasOrderByLabel = true →
      expect .orderBy (.node n) kw = .ok ⟨.node (.labelReference n), [], [Event.post]⟩) ∧
    (n.hasOrderByLabel = false →
      expect .orderBy (.node n) kw = .ok ⟨.node n, [], [Event.post]⟩) := by
  constructor <;> intro hmark <;>
    simp [expect, Value.isClauseElement, valueInRole, hrole, hasPost,
      postCoercion, orderByPost, hmark]

/-- C9 witness: the ordering claim at a concrete labeled node and a concrete
unlabeled node. -/
theorem c9_witness :
    nodeInRole .orderBy (.label (some "l") (.columnClause "c" false)) = true ∧
    expect .orderBy (.node (.label (some "l") (.columnClause "c" false))) {} =
      .ok ⟨.node (.labelReference (.label (some "l") (.columnClause "c" false))), [],
        [Event.post]⟩ :=
  ⟨rfl, (c9_order_by_label (.label (some "l") (.columnClause "c" false)) {} rfl).1 rfl⟩

/-- C7: for every rule set composed with the no-text-coercion policy,
`expect` applied to a bare string raises the coercion error, whatever the
argname option. -/
theorem c7_no_text_roles (r : Role) (s : String) (kw : Kw)
    (h : isNoTextRole r = true) :
    ∃ m, expect r (.str s) kw = .error (.argumentError m) := by
  cases r <;> first
    | exact ⟨_, rfl⟩
    | exact absurd h (by decide)

/-- C7 witness: the statement role rejects the concrete string "raw sql". -/
theorem c7_witness :
    isNoTextRole .statement = true ∧
    ∃ m, expect .statement (.str "raw sql") {} = .error (.argumentError m) :=
  ⟨rfl, c7_no_text_roles .statement "raw sql" {} rfl⟩

/-- C1 counterexample: for the anonymized-FROM role, `expect` on a table
node that already belongs to the accepted variant set does not return the
node itself: the unconditional post-coercion wraps it as an alias. -/
theorem c1_counterexample :
    nodeInRole .anonymizedFromClause (.table "t") = true ∧
    expect .anonymizedFromClause (.node (.table "t")) {} =
      .ok ⟨.node (.alias (.table "t") false), [], [Event.post]⟩ ∧
    Value.node (.alias (.table "t") false) ≠ Value.node (.table "t") :=
  ⟨rfl, rfl, by simp⟩

/-- C1 (amended): for every role and every tree node or schema item in the
accepted variant set, `expect` invokes neither literal nor implicit coercion
and emits no notice; it returns the node with only the post-coercion of the
role applied, and when the role defines no post-coercion the node itself is
returned unchanged. -/
theorem c1_fast_path (r : Role) (v : Value) (kw : Kw)
    (hce : v.isClauseElement = true) (hrole : valueInRole r v = true) :
    expect r v kw =
      .ok ⟨if hasPost r then postCoercion r v kw else v, [],
        if hasPost r then [Event.post] else []⟩ := by
  by_cases hp : hasPost r <;> simp [expect, hce, hrole, hp]

/-- C1 witness: the fast path at the WHERE/HAVING role and a null node. -/
theorem c1_witness :
    (Value.node Node.null).isClauseElement = true ∧
    valueInRole .whereHaving (.node .null) = true ∧
    expect .whereHaving (.node .null) {} =
      .ok ⟨if hasPost .whereHaving then postCoercion .whereHaving (.node .null) {} else .node .null,
        [], if hasPost .whereHaving then [Event.post] else []⟩ :=
  ⟨rfl, rfl, c1_fast_path .whereHaving (.node .null) {} rfl rfl⟩

/-- C2 counterexample: for the columns-clause role (which opts into
inspection), a hook-less value whose inspection descriptor exposes no
conversion hook makes `expect` raise directly, even though the literal
coercion of the role would have accepted the value (it is numeric): the
resolution does not fall through to literal coercion. -/
theorem c2_counterexample :
    useInspection .columnsClause = true ∧
    expect .columnsClause (.inspectable false (.table "x") (some 7)) {} =
      .error (raiseForExpected .columnsClause (.inspectable false (.table "x") (some 7)) none) ∧
    literalCoercion .columnsClause (.inspectable false (.table "x") (some 7)) {} =
      .ok (.node (.columnClause "7" true)) :=
  ⟨rfl, rfl, rfl⟩

/-- C2 (amended): for a role that opts into inspection and a hook-less
value, resolution falls through to the literal coercion only when the
inspection facility declines (returns no descriptor); when it returns a
descriptor that exposes no conversion hook, resolution raises the
role-mismatch error directly. -/
theorem c2_inspection_fallthrough (r : Role) (v : Value) (kw : Kw)
    (hins : useInspection r = true) (hhook : v.hasHookAttr = false) :
    (inspectValue v = none →
      resolveForClauseElement r v kw =
        (match literalCoercion r v kw with
         | .ok res => .ok (res, [Event.literal])
         | .error e => .error e)) ∧
    (∀ hn nv, v = .inspectable false hn nv →
      resolveForClauseElement r v kw = .error (raiseForExpected r v kw.argname)) := by
  constructor
  · intro hnone
    cases r <;> first
      | exact absurd hins (by decide)
      | (cases v <;>
          simp_all [resolveForClauseElement, unwrapLoop, inspectValue,
            useInspection, Value.hasHookAttr])
  · rintro hn nv rfl
    cases r <;> first
      | exact absurd hins (by decide)
      | simp [resolveForClauseElement, unwrapLoop, inspectValue, useInspection]

/-- C2 witness: the fall-through branch for the columns-clause role and a
plain object that inspection declines to describe. -/
theorem c2_witness :
    useInspection .columnsClause = true ∧
    (Value.plainObject 0).hasHookAttr = false ∧
    inspectValue (.plainObject 0) = none ∧
    resolveForClauseElement .columnsClause (.plainObject 0) {} =
      (match literalCoercion .columnsClause (.plainObject 0) {} with
       | .ok res => .ok (res, [Event.literal])
       | .error e => .error e) :=
  ⟨rfl, rfl, rfl,
    (c2_inspection_fallthrough .columnsClause (.plainObject 0) {} rfl rfl).1 rfl⟩

/-- C8 counterexample: the generic mismatch diagnostic renders the offending
value in full (a 30-character string is not truncated to the bounded
preview) and, without an argument name, uses a comma rather than the claimed
semicolon shape; and the expression-element literal-coercion failure path
omits the argument name even when one was supplied. -/
theorem c8_counterexample :
    expect .constExpr (.str "aaaaaaaaaaaaaaaaaaaaaaaaaaaaaa") {} =
      .error (.argumentError
        "Constant True/False/None expression expected, got \x27aaaaaaaaaaaaaaaaaaaaaaaaaaaaaa\x27.") ∧
    ellipsesString (reprValue (.str "aaaaaaaaaaaaaaaaaaaaaaaaaaaaaa")) ≠
      reprValue (.str "aaaaaaaaaaaaaaaaaaaaaaaaaaaaaa") ∧
    "Constant True/False/None expression expected, got \x27aaaaaaaaaaaaaaaaaaaaaaaaaaaaaa\x27." ≠
      roleName .constExpr ++ " expected; got " ++
        ellipsesString (reprValue (.str "aaaaaaaaaaaaaaaaaaaaaaaaaaaaaa")) ++ "." ∧
    expect .expressionElement (.list []) { argname := some "x" } =
      .error (.argumentError (raiseForExpectedMsg .expressionElement (.list []) none)) ∧
    raiseForExpectedMsg .expressionElement (.list []) none ≠
      raiseForExpectedMsg .expressionElement (.list []) (some "x") :=
  ⟨rfl, by decide, by decide, rfl, by decide⟩

/-- C8 (amended): the generic mismatch diagnostic names the required role
and renders the offending value by its full repr, with shape
"name expected for argument a; got v." when an argument name was supplied
to that path and "name expected, got v." when not; and every role whose
implicit coercion is the default produces exactly this diagnostic from
`expect` on a rejected node, with the argument name of the call. -/
theorem c8_message_shape (r : Role) (v : Value) (a : String) (n : Node) (kw : Kw)
    (hrole : nodeInRole r n = false) (hdef : usesDefaultImplicit r = true) :
    raiseForExpectedMsg r v (some a) =
      roleName r ++ " expected for argument \x27" ++ a ++ "\x27; got " ++ reprValue v ++ "." ∧
    raiseForExpectedMsg r v none =
      roleName r ++ " expected, got " ++ reprValue v ++ "." ∧
    expect r (.node n) kw =
      .error (.argumentError (raiseForExpectedMsg r (.node n) kw.argname)) := by
  refine ⟨rfl, rfl, ?_⟩
  cases r <;> first
    | exact absurd hdef (by decide)
    | simp [expect, Value.isClauseElement, valueInRole, hrole, implicitCoercions,
        raiseForExpected]

/-- C8 witness: the diagnostic of the constant-expression role at a concrete
rejected node with a concrete argument name. -/
theorem c8_witness :
    nodeInRole .constExpr (.textClause "t") = false ∧
    usesDefaultImplicit .constExpr = true ∧
    expect .constExpr (.node (.textClause "t")) { argname := some "a" } =
      .error (.argumentError
        (raiseForExpectedMsg .constExpr (.node (.textClause "t")) (some "a"))) :=
  ⟨rfl, rfl,
    (c8_message_shape .constExpr (.str "x") "x" (.textClause "t")
      { argname := some "a" } rfl rfl).2.2⟩

/-- C5 counterexample: `expect` is not idempotent for the anonymized-FROM
role (a second application aliases the already-aliased result again) nor for
the membership-test role (a second application wraps the SELECT produced by
implicit coercion into a scalar subquery). -/
theorem c5_counterexample :
    expect .anonymizedFromClause (.node (.table "t")) {} =
      .ok ⟨.node (.alias (.table "t") false), [], [Event.post]⟩ ∧
    expect .anonymizedFromClause (.node (.alias (.table "t") false)) {} =
      .ok ⟨.node (.alias (.alias (.table "t") false) false), [], [Event.post]⟩ ∧
    Value.node (.alias (.alias (.table "t") false) false) ≠
      Value.node (.alias (.table "t") false) ∧
    expect .inElement (.node (.table "s")) { expr := .columnClause "c" false } =
      .ok ⟨.node (.selectStmt (.table "s")), [], [Event.implicit]⟩ ∧
    expect .inElement (.node (.selectStmt (.table "s"))) { expr := .columnClause "c" false } =
      .ok ⟨.node (.scalarSubquery (.selectStmt (.table "s"))), [], [Event.post]⟩ ∧
    Value.node (.scalarSubquery (.selectStmt (.table "s"))) ≠
      Value.node (.selectStmt (.table "s")) :=
  ⟨rfl, rfl, by simp, rfl, rfl, by simp⟩

/-! Helper lemmas for the idempotence analysis. -/

/-- Flag exclusivity: a text clause is not a FROM clause. -/
theorem text_not_from : (n : Node) → n.isTextClauseNode = true →
    n.isFromClauseNode = false
  | .annotated m _, h => text_not_from m h
  | .textClause _, _ => rfl
  | .null, h | .false_, h | .true_, h | .bindParam .., h
  | .offsetLimitParam .., h | .columnClause .., h | .label .., h
  | .labelReference .., h | .textualLabelReference .., h | .clauseList .., h
  | .tupleClause .., h | .grouping .., h | .selectStmt .., h
  | .textAsFrom .., h | .scalarSubquery .., h | .subquery .., h
  | .alias .., h | .table .., h => Bool.noConfusion h

/-- Flag exclusivity: a FROM clause is not a SELECT statement. -/
theorem from_not_select : (n : Node) → n.isFromClauseNode = true →
    n.isSelectStatement = false
  | .annotated m _, h => from_not_select m h
  | .table _, _ => rfl
  | .alias _ _, _ => rfl
  | .subquery _, _ => rfl
  | .null, h | .false_, h | .true_, h | .bindParam .., h
  | .offsetLimitParam .., h | .textClause _, h | .columnClause .., h
  | .label .., h | .labelReference .., h | .textualLabelReference .., h
  | .clauseList .., h | .tupleClause .., h | .grouping .., h
  | .selectStmt .., h | .textAsFrom .., h | .scalarSubquery .., h => Bool.noConfusion h

/-- Decomposition of a successful dispatch: the resolved value either came
from the fast path or from resolution, and the result either is the (post
coerced) resolved value of the accepted variant set or came from implicit
coercion. -/
theorem expect_ok_cases (r : Role) (v : Value) (kw : Kw) (o : Outcome)
    (h : expect r v kw = .ok o) :
    ∃ resolved,
      ((v.isClauseElement = true ∧ resolved = v) ∨
        (v.isClauseElement = false ∧
          ∃ evs, resolveForClauseElement r v kw = .ok (resolved, evs))) ∧
      ((valueInRole r resolved = true ∧
          o.value = (if hasPost r then postCoercion r resolved kw else resolved)) ∨
        (valueInRole r resolved = false ∧
          ∃ warns, implicitCoercions r v resolved kw = .ok (o.value, warns))) := by
  unfold expect at h
  split at h
  next e heq => exact Except.noConfusion h
  next resolved evs heq =>
    refine ⟨resolved, ?_, ?_⟩
    · rcases Bool.eq_false_or_eq_true v.isClauseElement with hce | hce
      · rw [if_pos hce] at heq
        simp only [Except.ok.injEq, Prod.mk.injEq] at heq
        exact Or.inl ⟨hce, heq.1.symm⟩
      · rw [if_neg (by simp [hce])] at heq
        exact Or.inr ⟨hce, evs, heq⟩
    · split at h
      next hvr =>
        refine Or.inl ⟨hvr, ?_⟩
        split at h <;>
          simp only [Except.ok.injEq] at h <;> subst h <;> simp_all
      next hvr =>
        have hvr' : valueInRole r resolved = false := by
          revert hvr; cases valueInRole r resolved <;> simp
        refine Or.inr ⟨hvr', ?_⟩
        split at h
        next e heq2 => exact Except.noConfusion h
        next res warns heq2 =>
          simp only [Except.ok.injEq] at h
          subst h
          exact ⟨warns, heq2⟩

/-- An accepted value of a rule set without post-coercion is a fixed point
of the dispatcher. -/
theorem inRole_stable (r : Role) (x : Value) (kw : Kw)
    (hp : hasPost r = false) (hx : valueInRole r x = true) :
    ∃ o2, expect r x kw = .ok o2 ∧ o2.value = x := by
  cases x with
  | node n =>
    exact ⟨⟨.node n, [], []⟩, by simp [expect, Value.isClauseElement, hx, hp], rfl⟩
  | truncLabel s =>
    have hr : r = .truncatedLabel := by simpa [valueInRole] using hx
    subst hr
    exact ⟨⟨.truncLabel s, [], [Event.literal]⟩, rfl, rfl⟩
  | schemaItem nm => simp [valueInRole] at hx
  | str s => simp [valueInRole] at hx
  | int k => simp [valueInRole] at hx
  | bool b => simp [valueInRole] at hx
  | none_ => simp [valueInRole] at hx
  | list xs => simp [valueInRole] at hx
  | hooked w => simp [valueInRole] at hx
  | inspectable a b c => simp [valueInRole] at hx
  | plainObject id => simp [valueInRole] at hx

/-- Post coercion of the binary-element rule set preserves the column
element classes. -/
theorem binPost_isColumnElement : (n : Node) → (kw : Kw) →
    (binaryElementPost n kw).isColumnElement = n.isColumnElement
  | .annotated m _, kw => binPost_isColumnElement m kw
  | .bindParam _ _ ty _ _, _ => by cases ty <;> rfl
  | .offsetLimitParam _ _ ty, _ => by cases ty <;> rfl
  | .null, _ | .false_, _ | .true_, _ | .textClause _, _ | .columnClause .., _
  | .label .., _ | .labelReference _, _ | .textualLabelReference _, _
  | .clauseList _, _ | .tupleClause _, _ | .grouping _, _ | .selectStmt _, _
  | .textAsFrom _, _ | .scalarSubquery _, _ | .subquery _, _ | .alias .., _
  | .table _, _ => rfl

/-- Post coercion of the binary-element rule set is idempotent. -/
theorem binPost_idem : (n : Node) → (kw : Kw) →
    binaryElementPost (binaryElementPost n kw) kw = binaryElementPost n kw
  | .annotated m ops, kw => by
    show Node.annotated (binaryElementPost (binaryElementPost m kw) kw) ops =
      Node.annotated (binaryElementPost m kw) ops
    rw [binPost_idem m kw]
  | .bindParam nm v ty ex tys, kw => by
    cases ty <;> simp [binaryElementPost, Ty.isnull]
  | .offsetLimitParam nm v ty, kw => by
    cases ty <;> simp [binaryElementPost, Ty.isnull]
  | .null, _ | .false_, _ | .true_, _ | .textClause _, _ | .columnClause .., _
  | .label .., _ | .labelReference _, _ | .textualLabelReference _, _
  | .clauseList _, _ | .tupleClause _, _ | .grouping _, _ | .selectStmt _, _
  | .textAsFrom _, _ | .scalarSubquery _, _ | .subquery _, _ | .alias .., _
  | .table _, _ => rfl

/-- Outputs of the scalar-subquery implicit coercion are scalar
subqueries. -/
theorem colCoerc_shape (r : Role) (orig resolved : Value) (kw : Kw)
    (out : Value) (w : List String)
    (h : columnCoercionsIC r orig resolved kw = .ok (out, w)) :
    ∃ m, out = .node (.scalarSubquery m) := by
  unfold columnCoercionsIC at h
  split at h
  next n =>
    split at h
    · simp only [Except.ok.injEq, Prod.mk.injEq] at h
      exact ⟨n, h.1.symm⟩
    · split at h
      · simp only [Except.ok.injEq, Prod.mk.injEq] at h
        exact ⟨n.original, h.1.symm⟩
      · exact Except.noConfusion h
  next => exact Except.noConfusion h

/-- Outputs of the string-key implicit coercion are the string original. -/
theorem stringKey_shape (r : Role) (orig resolved : Value) (kw : Kw)
    (out : Value) (w : List String)
    (h : returnsStringKeyIC r orig resolved kw = .ok (out, w)) :
    out = orig ∧ orig.isStringLike = true := by
  unfold returnsStringKeyIC at h
  split at h
  next hs =>
    simp only [Except.ok.injEq, Prod.mk.injEq] at h
    exact ⟨h.1.symm, hs⟩
  next => exact Except.noConfusion h

/-- Outputs of the labeled-column implicit coercion are anonymous labels. -/
theorem labeled_shape (orig resolved : Value) (kw : Kw) (out : Value)
    (w : List String)
    (h : labeledColumnExprIC orig resolved kw = .ok (out, w)) :
    ∃ m, out = .node (.label none m) := by
  unfold labeledColumnExprIC at h
  split at h
  next hin =>
    split at h
    next n =>
      simp only [Except.ok.injEq, Prod.mk.injEq] at h
      exact ⟨n, h.1.symm⟩
    next => exact Except.noConfusion h
  next hin =>
    split at h
    next newv warns heq =>
      split at h
      next hin2 =>
        split at h
        next n =>
          simp only [Except.ok.injEq, Prod.mk.injEq] at h
          exact ⟨n, h.1.symm⟩
        next => exact Except.noConfusion h
      next hin2 => exact Except.noConfusion h
    next e heq => exact Except.noConfusion h

/-- Outputs of the select-statement implicit coercion are textual
selects. -/
theorem selectStatement_shape (orig resolved : Value) (kw : Kw) (out : Value)
    (w : List String)
    (h : selectStatementIC orig resolved kw = .ok (out, w)) :
    ∃ m, out = .node (.textAsFrom m) := by
  unfold selectStatementIC at h
  split at h
  next n =>
    split at h
    · simp only [Except.ok.injEq, Prod.mk.injEq] at h
      exact ⟨n, h.1.symm⟩
    · exact Except.noConfusion h
  next => exact Except.noConfusion h

/-- Outputs of the FROM-clause implicit coercion are the resolved text
clause. -/
theorem fromClause_shape (orig resolved : Value) (kw : Kw) (out : Value)
    (w : List String)
    (h : fromClauseIC orig resolved kw = .ok (out, w)) :
    ∃ n, out = .node n ∧ n.isTextClauseNode = true := by
  unfold fromClauseIC at h
  split at h
  next n =>
    split at h
    next htext =>
      simp only [Except.ok.injEq, Prod.mk.injEq] at h
      exact ⟨n, h.1.symm, htext⟩
    next => exact Except.noConfusion h
  next => exact Except.noConfusion h

/-- Outputs of the strict-FROM implicit coercion are subqueries. -/
theorem strictFrom_shape (r : Role) (orig resolved : Value) (kw : Kw)
    (out : Value) (w : List String)
    (h : strictFromIC r orig resolved kw = .ok (out, w)) :
    ∃ n, out = .node (.subquery n) := by
  unfold strictFromIC at h
  split at h
  next n =>
    split at h
    · simp only [Except.ok.injEq, Prod.mk.injEq] at h
      exact ⟨n, h.1.symm⟩
    · exact Except.noConfusion h
  next => exact Except.noConfusion h

/-- Outputs of the DML-select implicit coercion are SELECT statements. -/
theorem dmlSelect_shape (orig resolved : Value) (kw : Kw) (out : Value)
    (w : List String)
    (h : dmlSelectIC orig resolved kw = .ok (out, w)) :
    ∃ m, out = .node m ∧ m.isSelectStatement = true := by
  unfold dmlSelectIC at h
  split at h
  next n =>
    split at h
    next hfrom =>
      split at h
      next hcond =>
        simp only [Except.ok.injEq, Prod.mk.injEq] at h
        exact ⟨n.original, h.1.symm, (Bool.and_eq_true _ _ |>.mp hcond).2⟩
      next =>
        simp only [Except.ok.injEq, Prod.mk.injEq] at h
        exact ⟨.selectStmt n, h.1.symm, rfl⟩
    next => exact Except.noConfusion h
  next => exact Except.noConfusion h

/-- Outputs of the compound-element implicit coercion are the resolved FROM
clause. -/
theorem compound_shape (orig resolved : Value) (kw : Kw) (out : Value)
    (w : List String)
    (h : compoundElementIC orig resolved kw = .ok (out, w)) :
    ∃ n, out = .node n ∧ n.isFromClauseNode = true := by
  unfold compoundElementIC at h
  split at h
  next n =>
    split at h
    next hfrom =>
      simp only [Except.ok.injEq, Prod.mk.injEq] at h
      exact ⟨n, h.1.symm, hfrom⟩
    next => exact Except.noConfusion h
  next => exact Except.noConfusion h

/-- Outputs of the limit/offset implicit coercion are None. -/
theorem limitOffset_shape (orig resolved : Value) (kw : Kw) (out : Value)
    (w : List String)
    (h : limitOffsetIC orig resolved kw = .ok (out, w)) : out = .none_ := by
  unfold limitOffsetIC at h
  split at h
  · simp only [Except.ok.injEq, Prod.mk.injEq] at h
    exact h.1.symm
  · exact Except.noConfusion h

/-- The truncated-label implicit coercion succeeds only on string
originals. -/
theorem truncatedLabel_orig_string (orig resolved : Value) (kw : Kw)
    (out : Value) (w : List String)
    (h : truncatedLabelIC orig resolved kw = .ok (out, w)) :
    orig.isStringLike = true := by
  unfold truncatedLabelIC at h
  split at h
  next hs => exact hs
  next => exact Except.noConfusion h

/-- A value accepted by a role other than the truncated-label role is a tree
node. -/
theorem inRole_node : (r : Role) → (x : Value) → r ≠ .truncatedLabel →
    valueInRole r x = true → ∃ n, x = .node n
  | _, .node n, _, _ => ⟨n, rfl⟩
  | _, .truncLabel _, hr, hx => absurd (of_decide_eq_true hx) hr
  | _, .schemaItem _, _, hx | _, .str _, _, hx | _, .int _, _, hx
  | _, .bool _, _, hx | _, .none_, _, hx | _, .list _, _, hx
  | _, .hooked _, _, hx | _, .inspectable .., _, hx
  | _, .plainObject _, _, hx => Bool.noConfusion hx

/-- A string-like value is a plain string or a truncated label. -/
theorem stringLike_cases : (x : Value) → x.isStringLike = true →
    (∃ s, x = .str s) ∨ (∃ s, x = .truncLabel s)
  | .str s, _ => Or.inl ⟨s, rfl⟩
  | .truncLabel s, _ => Or.inr ⟨s, rfl⟩
  | .node _, h | .schemaItem _, h | .int _, h | .bool _, h | .none_, h
  | .list _, h | .hooked _, h | .inspectable .., h
  | .plainObject _, h => Bool.noConfusion h

/-- C5 (amended): for every role other than the anonymized-FROM role and the
membership-test role, applying `expect` again to the value returned by a
first successful `expect` yields the same value. -/
theorem c5_idempotent (r : Role) (v : Value) (kw : Kw) (o : Outcome)
    (h1 : r ≠ .anonymizedFromClause) (h2 : r ≠ .inElement)
    (h : expect r v kw = .ok o) :
    ∃ o2, expect r o.value kw = .ok o2 ∧ o2.value = o.value := by
  obtain ⟨resolved, hres, hout⟩ := expect_ok_cases r v kw o h
  cases r with
  | anonymizedFromClause => exact absurd rfl h1
  | inElement => exact absurd rfl h2
  | expressionElement =>
    rcases hout with ⟨hvr, hval⟩ | ⟨hvr, warns, himp⟩
    · have hval' : o.value = resolved := by simpa [hasPost] using hval
      rw [hval']; exact inRole_stable _ resolved kw rfl hvr
    · obtain ⟨m, hm⟩ := colCoerc_shape _ v resolved kw o.value warns himp
      rw [hm]; exact inRole_stable _ _ kw rfl rfl
  | whereHaving =>
    rcases hout with ⟨hvr, hval⟩ | ⟨hvr, warns, himp⟩
    · have hval' : o.value = resolved := by simpa [hasPost] using hval
      rw [hval']; exact inRole_stable _ resolved kw rfl hvr
    · obtain ⟨m, hm⟩ := colCoerc_shape _ v resolved kw o.value warns himp
      rw [hm]; exact inRole_stable _ _ kw rfl rfl
  | byOf =>
    rcases hout with ⟨hvr, hval⟩ | ⟨hvr, warns, himp⟩
    · have hval' : o.value = resolved := by simpa [hasPost] using hval
      rw [hval']; exact inRole_stable _ resolved kw rfl hvr
    · obtain ⟨m, hm⟩ := colCoerc_shape _ v resolved kw o.value warns himp
      rw [hm]; exact inRole_stable _ _ kw rfl rfl
  | binaryElement =>
    rcases hout with ⟨hvr, hval⟩ | ⟨hvr, warns, himp⟩
    · obtain ⟨n, rfl⟩ := inRole_node _ resolved (by decide) hvr
      have hc : n.isColumnElement = true := by
        simpa [valueInRole, nodeInRole] using hvr
      have hval' : o.value = .node (binaryElementPost n kw) := by
        simpa [hasPost, postCoercion] using hval
      rw [hval']
      refine ⟨⟨.node (binaryElementPost (binaryElementPost n kw) kw), [],
        [Event.post]⟩, ?_, by rw [binPost_idem]⟩
      simp [expect, Value.isClauseElement, valueInRole, nodeInRole,
        binPost_isColumnElement, hc, hasPost, postCoercion]
    · obtain ⟨m, hm⟩ := colCoerc_shape _ v resolved kw o.value warns himp
      rw [hm]
      exact ⟨⟨.node (.scalarSubquery m), [], [Event.post]⟩, rfl, rfl⟩
  | orderBy =>
    rcases hout with ⟨hvr, hval⟩ | ⟨hvr, warns, himp⟩
    · obtain ⟨n, rfl⟩ := inRole_node _ resolved (by decide) hvr
      have hval' : o.value = orderByPost (.node n) := by
        simpa [hasPost, postCoercion] using hval
      rcases Bool.eq_false_or_eq_true
          (nodeInRole .orderBy n && n.hasOrderByLabel) with hm | hm
      · have hv2 : o.value = .node (.labelReference n) := by
          rw [hval']; simp [orderByPost, hm]
        rw [hv2]
        exact ⟨⟨.node (.labelReference n), [], [Event.post]⟩, rfl, rfl⟩
      · have hv2 : o.value = .node n := by
          rw [hval']; simp [orderByPost, hm]
        rw [hv2]
        refine ⟨⟨.node n, [], [Event.post]⟩, ?_, rfl⟩
        simp [expect, Value.isClauseElement, hvr, hasPost, postCoercion,
          orderByPost, hm]
    · obtain ⟨m, hm⟩ := colCoerc_shape _ v resolved kw o.value warns himp
      rw [hm]
      exact ⟨⟨.node (.scalarSubquery m), [], [Event.post]⟩, rfl, rfl⟩
  | dmlColumn =>
    rcases hout with ⟨hvr, hval⟩ | ⟨hvr, warns, himp⟩
    · obtain ⟨n, rfl⟩ := inRole_node _ resolved (by decide) hvr
      have hval' : o.value = dmlColumnPost (.node n) kw := by
        simpa [hasPost, postCoercion] using hval
      rcases Bool.eq_false_or_eq_true kw.as_key with hk | hk
      · have hv2 : o.value = .str n.keyOf := by rw [hval']; simp [dmlColumnPost, hk]
        rw [hv2]
        exact ⟨⟨.str n.keyOf, [], [Event.literal, Event.implicit]⟩, rfl, rfl⟩
      · have hv2 : o.value = .node n := by rw [hval']; simp [dmlColumnPost, hk]
        rw [hv2]
        refine ⟨⟨.node n, [], [Event.post]⟩, ?_, rfl⟩
        simp [expect, Value.isClauseElement, hvr, hasPost, postCoercion,
          dmlColumnPost, hk]
    · obtain ⟨ho, hs⟩ := stringKey_shape _ v resolved kw o.value warns himp
      rcases stringLike_cases v hs with ⟨s, rfl⟩ | ⟨s, rfl⟩ <;> rw [ho]
      · exact ⟨⟨.str s, [], [Event.literal, Event.implicit]⟩, rfl, rfl⟩
      · exact ⟨⟨.truncLabel s, [], [Event.literal, Event.implicit]⟩, rfl, rfl⟩
  | columnArgumentOrKey =>
    rcases hout with ⟨hvr, hval⟩ | ⟨hvr, warns, himp⟩
    · have hval' : o.value = resolved := by simpa [hasPost] using hval
      rw [hval']; exact inRole_stable _ resolved kw rfl hvr
    · obtain ⟨ho, hs⟩ := stringKey_shape _ v resolved kw o.value warns himp
      rcases stringLike_cases v hs with ⟨s, rfl⟩ | ⟨s, rfl⟩ <;> rw [ho]
      · exact ⟨⟨.str s, [], [Event.literal, Event.implicit]⟩, rfl, rfl⟩
      · exact ⟨⟨.truncLabel s, [], [Event.literal, Event.implicit]⟩, rfl, rfl⟩
  | ddlConstraintColumn =>
    rcases hout with ⟨hvr, hval⟩ | ⟨hvr, warns, himp⟩
    · have hval' : o.value = resolved := by simpa [hasPost] using hval
      rw [hval']; exact inRole_stable _ resolved kw rfl hvr
    · obtain ⟨ho, hs⟩ := stringKey_shape _ v resolved kw o.value warns himp
      rcases stringLike_cases v hs with ⟨s, rfl⟩ | ⟨s, rfl⟩ <;> rw [ho]
      · exact ⟨⟨.str s, [], [Event.literal, Event.implicit]⟩, rfl, rfl⟩
      · exact ⟨⟨.truncLabel s, [], [Event.literal, Event.implicit]⟩, rfl, rfl⟩
  | statementOption =>
    rcases hout with ⟨hvr, hval⟩ | ⟨hvr, warns, himp⟩
    · have hval' : o.value = resolved := by simpa [hasPost] using hval
      rw [hval']; exact inRole_stable _ resolved kw rfl hvr
    · exact Except.noConfusion himp
  | columnArgument =>
    rcases hout with ⟨hvr, hval⟩ | ⟨hvr, warns, himp⟩
    · have hval' : o.value = resolved := by simpa [hasPost] using hval
      rw [hval']; exact inRole_stable _ resolved kw rfl hvr
    · exact Except.noConfusion himp
  | constExpr =>
    rcases hout with ⟨hvr, hval⟩ | ⟨hvr, warns, himp⟩
    · have hval' : o.value = resolved := by simpa [hasPost] using hval
      rw [hval']; exact inRole_stable _ resolved kw rfl hvr
    · exact Except.noConfusion himp
  | ddlExpression =>
    rcases hout with ⟨hvr, hval⟩ | ⟨hvr, warns, himp⟩
    · have hval' : o.value = resolved := by simpa [hasPost] using hval
      rw [hval']; exact inRole_stable _ resolved kw rfl hvr
    · exact Except.noConfusion himp
  | columnsClause =>
    rcases hout with ⟨hvr, hval⟩ | ⟨hvr, warns, himp⟩
    · have hval' : o.value = resolved := by simpa [hasPost] using hval
      rw [hval']; exact inRole_stable _ resolved kw rfl hvr
    · exact Except.noConfusion himp
  | returnsRows =>
    rcases hout with ⟨hvr, hval⟩ | ⟨hvr, warns, himp⟩
    · have hval' : o.value = resolved := by simpa [hasPost] using hval
      rw [hval']; exact inRole_stable _ resolved kw rfl hvr
    · exact Except.noConfusion himp
  | statement =>
    rcases hout with ⟨hvr, hval⟩ | ⟨hvr, warns, himp⟩
    · have hval' : o.value = resolved := by simpa [hasPost] using hval
      rw [hval']; exact inRole_stable _ resolved kw rfl hvr
    · exact Except.noConfusion himp
  | coerceTextStatement =>
    rcases hout with ⟨hvr, hval⟩ | ⟨hvr, warns, himp⟩
    · have hval' : o.value = resolved := by simpa [hasPost] using hval
      rw [hval']; exact inRole_stable _ resolved kw rfl hvr
    · exact Except.noConfusion himp
  | hasCTE =>
    rcases hout with ⟨hvr, hval⟩ | ⟨hvr, warns, himp⟩
    · have hval' : o.value = resolved := by simpa [hasPost] using hval
      rw [hval']; exact inRole_stable _ resolved kw rfl hvr
    · exact Except.noConfusion himp
  | truncatedLabel =>
    rcases hout with ⟨hvr, hval⟩ | ⟨hvr, warns, himp⟩
    · have hval' : o.value = resolved := by simpa [hasPost] using hval
      rw [hval']; exact inRole_stable _ resolved kw rfl hvr
    · have hs := truncatedLabel_orig_string v resolved kw o.value warns himp
      rcases stringLike_cases v hs with ⟨s, rfl⟩ | ⟨s, rfl⟩ <;>
        rcases hres with ⟨hce, _⟩ | ⟨_, evs, hres2⟩
      · exact absurd hce (by simp [Value.isClauseElement])
      · simp only [resolveForClauseElement, truncatedLabelLC, Except.ok.injEq,
          Prod.mk.injEq] at hres2
        rw [← hres2.1] at hvr
        simp [valueInRole] at hvr
      · exact absurd hce (by simp [Value.isClauseElement])
      · simp only [resolveForClauseElement, truncatedLabelLC, Except.ok.injEq,
          Prod.mk.injEq] at hres2
        rw [← hres2.1] at hvr
        simp [valueInRole] at hvr
  | limitOffset =>
    rcases hout with ⟨hvr, hval⟩ | ⟨hvr, warns, himp⟩
    · have hval' : o.value = resolved := by simpa [hasPost] using hval
      rw [hval']; exact inRole_stable _ resolved kw rfl hvr
    · have ho := limitOffset_shape v resolved kw o.value warns himp
      rw [ho]
      exact ⟨⟨.none_, [], [Event.literal, Event.implicit]⟩, rfl, rfl⟩
  | labeledColumnExpr =>
    rcases hout with ⟨hvr, hval⟩ | ⟨hvr, warns, himp⟩
    · have hval' : o.value = resolved := by simpa [hasPost] using hval
      rw [hval']; exact inRole_stable _ resolved kw rfl hvr
    · obtain ⟨m, hm⟩ := labeled_shape v resolved kw o.value warns himp
      rw [hm]
      exact ⟨⟨.node (.label none m), [], []⟩, rfl, rfl⟩
  | selectStatement =>
    rcases hout with ⟨hvr, hval⟩ | ⟨hvr, warns, himp⟩
    · have hval' : o.value = resolved := by simpa [hasPost] using hval
      rw [hval']; exact inRole_stable _ resolved kw rfl hvr
    · obtain ⟨m, hm⟩ := selectStatement_shape v resolved kw o.value warns himp
      rw [hm]
      exact ⟨⟨.node (.textAsFrom m), [], []⟩, rfl, rfl⟩
  | fromClause =>
    rcases hout with ⟨hvr, hval⟩ | ⟨hvr, warns, himp⟩
    · have hval' : o.value = resolved := by simpa [hasPost] using hval
      rw [hval']; exact inRole_stable _ resolved kw rfl hvr
    · obtain ⟨n, hm, htext⟩ := fromClause_shape v resolved kw o.value warns himp
      rw [hm]
      refine ⟨⟨.node n, [], [Event.implicit]⟩, ?_, rfl⟩
      simp [expect, Value.isClauseElement, valueInRole, nodeInRole,
        text_not_from n htext, implicitCoercions, fromClauseIC, htext, hasPost]
  | strictFromClause =>
    rcases hout with ⟨hvr, hval⟩ | ⟨hvr, warns, himp⟩
    · have hval' : o.value = resolved := by simpa [hasPost] using hval
      rw [hval']; exact inRole_stable _ resolved kw rfl hvr
    · obtain ⟨n, hm⟩ := strictFrom_shape _ v resolved kw o.value warns himp
      rw [hm]
      exact ⟨⟨.node (.subquery n), [], []⟩, rfl, rfl⟩
  | dmlSelect =>
    rcases hout with ⟨hvr, hval⟩ | ⟨hvr, warns, himp⟩
    · have hval' : o.value = resolved := by simpa [hasPost] using hval
      rw [hval']; exact inRole_stable _ resolved kw rfl hvr
    · obtain ⟨m, hm, hsel⟩ := dmlSelect_shape v resolved kw o.value warns himp
      rw [hm]
      refine inRole_stable _ (.node m) kw rfl ?_
      simpa [valueInRole, nodeInRole] using hsel
  | compoundElement =>
    rcases hout with ⟨hvr, hval⟩ | ⟨hvr, warns, himp⟩
    · have hval' : o.value = resolved := by simpa [hasPost] using hval
      rw [hval']; exact inRole_stable _ resolved kw rfl hvr
    · obtain ⟨m, hm, hfrom⟩ := compound_shape v resolved kw o.value warns himp
      rw [hm]
      refine ⟨⟨.node m, [], [Event.implicit]⟩, ?_, rfl⟩
      simp [expect, Value.isClauseElement, valueInRole, nodeInRole,
        from_not_select m hfrom, implicitCoercions, compoundElementIC, hfrom,
        hasPost]

/-- C5 witness: idempotence at the WHERE/HAVING role for the None literal. -/
theorem c5_witness :
    Role.whereHaving ≠ Role.anonymizedFromClause ∧
    Role.whereHaving ≠ Role.inElement ∧
    expect .whereHaving .none_ {} = .ok ⟨.node .null, [], [Event.literal]⟩ ∧
    (∃ o2, expect .whereHaving (.node .null) {} = .ok o2 ∧ o2.value = .node .null) :=
  ⟨by decide, by decide, rfl,
    c5_idempotent .whereHaving .none_ {} ⟨.node .null, [], [Event.literal]⟩
      (by decide) (by decide) rfl⟩
